import Mathlib

/-
Verification development for the trading_bot repository.

Shallow embedding of the core state and operations:
  * src/json_utils.py            — atomic_json_write / safe_json_read
  * src/main/risk_manager.py     — monthly R ledger and drawdown-cap gate
  * src/main/order_manager.py    — position sizing, entry placement,
                                   batch entry processing, exit placement
  * src/main/log_manager.py      — trade ledger (log_trade_exit) and
                                   monthly performance summary
  * src/main/position_monitor.py — monitor_positions tick

Numeric values that the Python source holds as floats are embedded as
exact rationals (ℚ); quantities as integers (ℤ).  Fallible operations
return Option / Except.  Stateful code is embedded as explicit state
passing: each operation maps its input state to its output state together
with its returned value.
-/

namespace TradingBot

/-! ## Order manager: position sizing (src/main/order_manager.py:88-118)

`calculate_position_size(entry_price, stop_loss, total_equity)`:
`risk_amount = total_equity * RISK_PERCENT`;
`risk_per_share = entry_price - stop_loss`; returns None-triple when
`risk_per_share <= 0`; `quantity = int(risk_amount / risk_per_share)`
(Python `int()` truncates toward zero); returns None-triple when
`quantity <= 0`; otherwise returns
`(quantity, required_capital, risk_per_share)` with
`required_capital = entry_price * quantity`. -/

/-- `RISK_PERCENT = 0.01` (src/main/order_manager.py:38). -/
def RISK_PERCENT : ℚ := 1 / 100

/-- `TP_MULTIPLIER = 3.0` (src/main/order_manager.py:39). -/
def TP_MULTIPLIER : ℚ := 3

/-- Python `int()` applied to a rational: truncation toward zero. -/
def ratTrunc (q : ℚ) : ℤ :=
  if 0 ≤ q then ⌊q⌋ else -⌊-q⌋

/-- Embedding of `calculate_position_size` (src/main/order_manager.py:88-118).
Returns `(quantity, required_capital, risk_per_share)` or `none`. -/
def calculate_position_size (entry_price stop_loss total_equity : ℚ) :
    Option (ℤ × ℚ × ℚ) :=
  let risk_amount := total_equity * RISK_PERCENT
  let risk_per_share := entry_price - stop_loss
  if risk_per_share ≤ 0 then
    none
  else
    let quantity := ratTrunc (risk_amount / risk_per_share)
    if quantity ≤ 0 then
      none
    else
      some (quantity, entry_price * (quantity : ℚ), risk_per_share)

/-! ## Risk manager (src/main/risk_manager.py) -/

/-- `MONTHLY_DD_CAP = -5.0` (src/main/risk_manager.py:16). -/
def MONTHLY_DD_CAP : ℚ := -5

/-- One record of the monthly R log (`monthly_pnl.json`):
an `exit_timestamp` ISO string and the trade's realized `r_value`. -/
structure RLogEntry where
  symbol : String
  r_value : ℚ
  exit_timestamp : String
  deriving Repr, DecidableEq

/-- Embedding of `get_current_month_r` (src/main/risk_manager.py:35-55):
it folds over the monthly log, keeping trades whose
`exit_timestamp[:7]` equals the current `YYYY-MM` string, and returns
the cumulative R and the count of such trades. -/
def get_current_month_r (log : List RLogEntry) (current_month : String) :
    ℚ × ℕ :=
  log.foldl
    (fun acc trade =>
      if trade.exit_timestamp.take 7 = current_month then
        (acc.1 + trade.r_value, acc.2 + 1)
      else acc)
    (0, 0)

/-- Embedding of `can_open_new_trades` (src/main/risk_manager.py:58-70):
returns `(allowed, current_r, message)`; blocks when
`current_r ≤ MONTHLY_DD_CAP`. -/
def can_open_new_trades (log : List RLogEntry) (current_month : String) :
    Bool × ℚ × String :=
  let res := get_current_month_r log current_month
  if res.1 ≤ MONTHLY_DD_CAP then
    (false, res.1, "Monthly DD cap hit")
  else
    (true, res.1, "Trading allowed")

/-- Embedding of the R computation performed by
`risk_manager.log_trade_exit` (src/main/risk_manager.py:92-100,134):
`risk_per_share = entry_price - stop_loss`;
`pnl_per_share = exit_price - entry_price`; returns 0 when
`risk_per_share ≤ 0`, else `pnl_per_share / risk_per_share`. -/
def risk_manager_r (entry_price exit_price stop_loss : ℚ) : ℚ :=
  let risk_per_share := entry_price - stop_loss
  let pnl_per_share := exit_price - entry_price
  if risk_per_share ≤ 0 then 0
  else pnl_per_share / risk_per_share

/-! ## Trade ledger R computation (src/main/log_manager.py:262-267)

Inside `log_trade_exit`: `pnl_per_share = exit_price - entry_price`;
`risk_per_share = entry_price - stop_loss`;
`r_value = pnl_per_share / risk_per_share if risk_per_share > 0 else 0`. -/

/-- The ledger's realized R-multiple for a close
(src/main/log_manager.py:262-267). -/
def computeRValue (entry_price stop_loss exit_price : ℚ) : ℚ :=
  let pnl_per_share := exit_price - entry_price
  let risk_per_share := entry_price - stop_loss
  if risk_per_share > 0 then pnl_per_share / risk_per_share else 0

/-! ## Trade ledger (src/main/log_manager.py:207-297)

`log_trade_exit(trade_id, symbol, exit_timestamp, exit_price, exit_reason,
bars_held)` searches the current month's `trades.json` and then, if the
previous month's directory exists, the previous month's file; in each
file it scans the trade list in order and updates the FIRST record for
which either `trade_id` is truthy and equal to the record's id (status is
NOT consulted on this branch), or `trade_id` is falsy and the record has
the given symbol with status OPEN.  On a match it computes P&L and R,
overwrites the exit fields (rounded to 2 decimals with Python `round`,
i.e. half-to-even), flips status to CLOSED, regenerates the summaries and
returns the (unrounded) r-value.  If no record matches in either month it
logs a warning and returns 0. -/

/-- Status field of a ledger record: `"OPEN"` or `"CLOSED"`. -/
inductive TradeStatus where
  | OPEN
  | CLOSED
  deriving Repr, DecidableEq

/-- One record of a month's `trades.json`
(src/main/log_manager.py:163-186). -/
structure Trade where
  trade_id : String
  symbol : String
  entry_timestamp : String
  entry_price : ℚ
  stop_loss : ℚ
  target_price : ℚ
  quantity : ℤ
  status : TradeStatus
  exit_timestamp : Option String
  exit_price : Option ℚ
  exit_reason : Option String
  bars_held : Option ℤ
  pnl_per_share : Option ℚ
  pnl_total : Option ℚ
  r_value : Option ℚ
  deriving Repr, DecidableEq

/-- Python `round(x)` to the nearest integer, ties to even. -/
def roundHalfEven (q : ℚ) : ℤ :=
  let f := ⌊q⌋
  let frac := q - (f : ℚ)
  if frac < 1 / 2 then f
  else if frac > 1 / 2 then f + 1
  else if Even f then f else f + 1

/-- Python `round(x, 2)`: round to 2 decimal places, ties to even. -/
def round2 (q : ℚ) : ℚ := (roundHalfEven (q * 100) : ℚ) / 100

/-- The match condition of the search loop in `log_trade_exit`
(src/main/log_manager.py:249-255): a truthy `trade_id` matches by id
alone (status is not consulted); a falsy `trade_id` matches by symbol
with status OPEN.  A falsy Python `trade_id` (None or the empty string)
is embedded as `none`. -/
def tradeMatches (tid : Option String) (symbol : String) (t : Trade) : Bool :=
  match tid with
  | some i => t.trade_id == i
  | none => t.symbol == symbol && t.status == TradeStatus.OPEN

/-- The in-place update a matched record receives
(src/main/log_manager.py:257-278). -/
def applyExit (t : Trade) (exit_timestamp : String) (exit_price : ℚ)
    (exit_reason : String) (bars_held : ℤ) : Trade :=
  let pnl_per_share := exit_price - t.entry_price
  let pnl_total := pnl_per_share * (t.quantity : ℚ)
  let r_value := computeRValue t.entry_price t.stop_loss exit_price
  { t with
    exit_timestamp := some exit_timestamp
    exit_price := some exit_price
    exit_reason := some exit_reason
    bars_held := some bars_held
    pnl_per_share := some (round2 pnl_per_share)
    pnl_total := some (round2 pnl_total)
    r_value := some (round2 r_value)
    status := TradeStatus.CLOSED }

/-- Scan one month's trade list in order; update the first matching
record and return the updated list together with the (unrounded)
r-value returned by `log_trade_exit`; `none` when no record matches. -/
def closeFirstMatch (tid : Option String) (symbol : String)
    (exit_timestamp : String) (exit_price : ℚ) (exit_reason : String)
    (bars_held : ℤ) : List Trade → Option (List Trade × ℚ)
  | [] => none
  | t :: ts =>
    if tradeMatches tid symbol t then
      some (applyExit t exit_timestamp exit_price exit_reason bars_held :: ts,
        computeRValue t.entry_price t.stop_loss exit_price)
    else
      match closeFirstMatch tid symbol exit_timestamp exit_price exit_reason
          bars_held ts with
      | some (ts2, r) => some (t :: ts2, r)
      | none => none

/-- The two month partitions `log_trade_exit` searches: the current
month's trade file and the previous month's (each `none` when the file
or directory is absent, src/main/log_manager.py:221-243). -/
structure Ledger where
  current : Option (List Trade)
  prev : Option (List Trade)
  deriving Repr, DecidableEq

/-- Embedding of `log_trade_exit` (src/main/log_manager.py:207-297):
search the current month first, then the previous month; on a match,
write the updated file for that month and return the r-value; if no
record matches in either month, return 0 with the ledger unchanged. -/
def log_trade_exit (tid : Option String) (symbol : String)
    (exit_timestamp : String) (exit_price : ℚ) (exit_reason : String)
    (bars_held : ℤ) (led : Ledger) : Ledger × ℚ :=
  let tryPrev : Ledger × ℚ :=
    match led.prev with
    | some ps =>
      match closeFirstMatch tid symbol exit_timestamp exit_price exit_reason
          bars_held ps with
      | some (ps2, r) => ({ led with prev := some ps2 }, r)
      | none => (led, 0)
    | none => (led, 0)
  match led.current with
  | some ts =>
    match closeFirstMatch tid symbol exit_timestamp exit_price exit_reason
        bars_held ts with
    | some (ts2, r) => ({ led with current := some ts2 }, r)
    | none => tryPrev
  | none => tryPrev

/-- `trades_closed` of the regenerated monthly summary: the number of
CLOSED records in the month (src/main/log_manager.py:436,527). -/
def summary_trades_closed (ts : List Trade) : ℕ :=
  (ts.filter (fun t => t.status == TradeStatus.CLOSED)).length

/-- `total_r` of the regenerated monthly summary: the sum of the stored
r-values of the CLOSED records (src/main/log_manager.py:456). -/
def summary_total_r (ts : List Trade) : ℚ :=
  ((ts.filter (fun t => t.status == TradeStatus.CLOSED)).map
    (fun t => t.r_value.getD 0)).sum

/-! ## Durable state store (src/json_utils.py:12-56)

`atomic_json_write(file_path, data)`: ensure the parent directory exists;
set `temp_path = file_path.with_suffix('.tmp')` (a sibling in the same
directory); inside a try block open the temp file, `json.dump` the data,
`flush`, `os.fsync`, then commit with the single atomic
`temp_path.replace(file_path)`.  On any exception in the try block the
handler unlinks the temp file if it exists and raises
`IOError(f"Failed to write ...")` (in Python 3, `IOError` is `OSError`,
so the re-raise and any `mkdir` failure both surface as `IOError`). -/

/-- A file path, split as directory, stem and suffix (the model of
`pathlib.Path` needed here: `with_suffix` swaps only the suffix of the
final component). -/
structure FsPath where
  dir : List String
  stem : String
  suffix : String
  deriving Repr, DecidableEq

/-- `file_path.with_suffix('.tmp')` (src/json_utils.py:39). -/
def tempPathOf (p : FsPath) : FsPath :=
  { p with suffix := ".tmp" }

/-- The two files `atomic_json_write` touches: the committed target file
and its sibling temporary file (`none` = the file does not exist). -/
structure FsState where
  committed : Option String
  temp : Option String
  deriving Repr, DecidableEq

/-- Where, if anywhere, the write is interrupted:
`ok` — no failure; `failDump partial0` — an exception inside the
`with open(temp_path, 'w')` block (dump / flush / fsync), with the temp
file holding whatever prefix was flushed; `failRename` — the temp file
was fully written and forced to disk but `replace` raised. -/
inductive WriteOutcome where
  | ok
  | failDump (partial0 : Option String)
  | failRename
  deriving Repr, DecidableEq

/-- Writing the full serialized content to the temp file
(src/json_utils.py:43-46). -/
def writeTemp (s : FsState) (content : String) : FsState :=
  { s with temp := some content }

/-- `temp_path.replace(file_path)` (src/json_utils.py:50): the atomic
rename makes the temp file's content the committed content and removes
the temp name. -/
def renameTempToTarget (s : FsState) : FsState :=
  { committed := s.temp, temp := none }

/-- The exception handler's cleanup (src/json_utils.py:54-55): unlink
the temp file if it exists. -/
def cleanupTemp (s : FsState) : FsState :=
  { s with temp := none }

/-- Embedding of `atomic_json_write` (src/json_utils.py:12-56) run
against a given failure scenario.  Returns the resulting filesystem
state and `some errMsg` when an `IOError` is raised to the caller. -/
def atomic_json_write (s : FsState) (content : String) (outcome : WriteOutcome) :
    FsState × Option String :=
  match outcome with
  | WriteOutcome.ok =>
    (renameTempToTarget (writeTemp s content), none)
  | WriteOutcome.failDump partial0 =>
    (cleanupTemp { s with temp := partial0 }, some "IOError: Failed to write")
  | WriteOutcome.failRename =>
    (cleanupTemp (writeTemp s content), some "IOError: Failed to write")

/-! ## Order execution gateway: entry placement
(src/main/order_manager.py:121-264, live mode, `TEST_MODE = False`)

`place_entry_order` submits a market buy; on a placement exception it
returns `(None, None)`.  Otherwise it verifies: fetch order history
(check 1); `COMPLETE` → log the trade and return the ids; `REJECTED` →
return `(None, None)`; any other status → wait and fetch again
(check 2); `COMPLETE` → log and return ids, anything else → return
`(None, None)`.  An exception raised by either history fetch lands in
the handler at line 246, which logs the trade anyway (the order was
accepted by the broker) and returns `(order_id, trade_id)`. -/

/-- Broker order status as consulted by the verification loop. -/
inductive OrderStatus where
  | COMPLETE
  | REJECTED
  | OTHER (s : String)
  deriving Repr, DecidableEq

/-- Embedding of `place_entry_order` (src/main/order_manager.py:166-264).
`placeRes` is the outcome of `kite.place_order`; `check1` and `check2`
are the outcomes of the two `kite.order_history` calls (each either an
API exception or a final status).  Returns the function's return value
`(order_id, trade_id)` (or `none` for `(None, None)`) paired with
whether `log_trade_entry` was invoked. -/
def place_entry_order (placeRes : Except String String)
    (check1 check2 : Except String OrderStatus) (trade_id : String) :
    Option (String × String) × Bool :=
  match placeRes with
  | Except.error _ => (none, false)
  | Except.ok order_id =>
    match check1 with
    | Except.error _ => (some (order_id, trade_id), true)
    | Except.ok OrderStatus.COMPLETE => (some (order_id, trade_id), true)
    | Except.ok OrderStatus.REJECTED => (none, false)
    | Except.ok (OrderStatus.OTHER _) =>
      match check2 with
      | Except.error _ => (some (order_id, trade_id), true)
      | Except.ok OrderStatus.COMPLETE => (some (order_id, trade_id), true)
      | Except.ok _ => (none, false)

/-! ## Order execution gateway: batch entry processing
(src/main/order_manager.py:300-420)

`process_entry_orders` (after the drawdown-cap gate and signal/equity
loading) iterates over the signal mapping with a fixed `total_equity`
and a mutable `available_margin`.  Per candidate symbol: skip if the
symbol is already in `existing_positions`; skip if sizing fails; skip if
`required_capital > available_margin`; otherwise place the entry order,
and only on success add the position to the cache
(`add_to_positions_cache`), mark `existing_positions[symbol] = True`,
and subtract `required_capital` from `available_margin` before the next
candidate. -/

/-- An entry signal (`entry_signals.json` value):
entry price, reclaim high and reclaim low (the stop). -/
structure Signal where
  entry_price : ℚ
  reclaim_high : ℚ
  reclaim_low : ℚ
  deriving Repr, DecidableEq

/-- One record of the open-position cache `open_positions.json`
(src/main/order_manager.py:280-287). -/
structure Pos where
  trade_id : String
  entry_price : ℚ
  stop_loss : ℚ
  target_price : ℚ
  quantity : ℤ
  entry_timestamp : String
  deriving Repr, DecidableEq

/-- Python dict assignment `cache[symbol] = entry` on an association
list: overwrite the existing binding, else append. -/
def cacheInsert (cache : List (String × Pos)) (s : String) (p : Pos) :
    List (String × Pos) :=
  if cache.any (fun e => e.1 == s) then
    cache.map (fun e => if e.1 == s then (s, p) else e)
  else
    cache ++ [(s, p)]

/-- Embedding of `add_to_positions_cache`
(src/main/order_manager.py:267-297): the cache record stored for a
fill, with `target_price = entry + TP_MULTIPLIER * (entry - stop)`. -/
def add_to_positions_cache (cache : List (String × Pos)) (symbol : String)
    (trade_id : String) (entry_price stop_loss : ℚ) (quantity : ℤ)
    (entry_timestamp : String) : List (String × Pos) :=
  let risk_per_share := entry_price - stop_loss
  let target_price := entry_price + TP_MULTIPLIER * risk_per_share
  cacheInsert cache symbol
    { trade_id := trade_id
      entry_price := entry_price
      stop_loss := stop_loss
      target_price := target_price
      quantity := quantity
      entry_timestamp := entry_timestamp }

/-- The mutable state threaded through the batch loop of
`process_entry_orders`: the duplicate-check set `existing_positions`
(its key set), the open-position cache, the remaining
`available_margin`, and the symbols successfully booked so far this
pass. -/
structure EntryState where
  positions : List String
  cache : List (String × Pos)
  margin : ℚ
  placed : List String
  deriving Repr, DecidableEq

/-- One iteration of the `process_entry_orders` loop
(src/main/order_manager.py:353-416) for candidate `c = (symbol, signal)`.
`oracle symbol` tells whether `place_entry_order` returned ids for the
symbol; `tradeIdOf`/`entryTsOf` supply the generated trade id and
timestamp. -/
def processCandidate (total_equity : ℚ) (oracle : String → Bool)
    (tradeIdOf entryTsOf : String → String) (st : EntryState)
    (c : String × Signal) : EntryState :=
  let symbol := c.1
  let sig := c.2
  if symbol ∈ st.positions then
    st
  else
    match calculate_position_size sig.entry_price sig.reclaim_low total_equity with
    | none => st
    | some (quantity, required_capital, _) =>
      if required_capital > st.margin then
        st
      else if oracle symbol then
        { positions := symbol :: st.positions
          cache := add_to_positions_cache st.cache symbol (tradeIdOf symbol)
            sig.entry_price sig.reclaim_low quantity (entryTsOf symbol)
          margin := st.margin - required_capital
          placed := st.placed ++ [symbol] }
      else
        st

/-- The batch loop of `process_entry_orders`
(src/main/order_manager.py:353-416): fold the candidates through
`processCandidate` in order. -/
def process_entry_orders (total_equity : ℚ) (oracle : String → Bool)
    (tradeIdOf entryTsOf : String → String) (st : EntryState)
    (signals : List (String × Signal)) : EntryState :=
  signals.foldl (processCandidate total_equity oracle tradeIdOf entryTsOf) st

/-! ## Position reconciliation monitor (src/main/position_monitor.py:112-289)

`monitor_positions()` loads the cache, fetches broker
holdings/day-positions and batch quotes, then per cached symbol:
  * not in current holdings → mark for removal, no ledger action;
  * broker quantity differs from the cache → correct the cached
    quantity to the broker's value and persist immediately;
  * no quote → skip the symbol;
  * `ltp <= stop_loss` → call `place_exit_order(symbol, qty, "SL")`; a
    truthy exit price leads to `log_trade_exit(..., "SL")` and removal;
  * `elif ltp >= target_price` → same with reason `"TP"`.
Marked symbols are deleted from the cache at the end of the tick. -/

/-- Exit reason passed to `place_exit_order` / `log_trade_exit` by the
monitor: `"SL"` or `"TP"`. -/
inductive ExitReason where
  | SL
  | TP
  deriving Repr, DecidableEq

/-- The per-symbol body of the `monitor_positions` loop
(src/main/position_monitor.py:180-282).  `holdings` is the merged
holdings/day-positions quantity map, `quotes` the batch quote map, and
`exitF` the result of `place_exit_order` for a given symbol and reason.
Returns the symbol's final cache entry (`none` when removed), the list
of exit-order invocations made, and the list of ledger closes written
(symbol, reason, exit price). -/
def monitorStep (holdings : String → Option ℤ) (quotes : String → Option ℚ)
    (exitF : String → ExitReason → Option ℚ) (symbol : String) (pos : Pos) :
    Option Pos × List (String × ExitReason) × List (String × ExitReason × ℚ) :=
  match holdings symbol with
  | none => (none, [], [])
  | some actual_quantity =>
    let pos1 := { pos with quantity := actual_quantity }
    match quotes symbol with
    | none => (some pos1, [], [])
    | some ltp =>
      if ltp ≤ pos1.stop_loss then
        match exitF symbol ExitReason.SL with
        | some exit_price =>
          if exit_price = 0 then
            (some pos1, [(symbol, ExitReason.SL)], [])
          else
            (none, [(symbol, ExitReason.SL)], [(symbol, ExitReason.SL, exit_price)])
        | none => (some pos1, [(symbol, ExitReason.SL)], [])
      else if ltp ≥ pos1.target_price then
        match exitF symbol ExitReason.TP with
        | some exit_price =>
          if exit_price = 0 then
            (some pos1, [(symbol, ExitReason.TP)], [])
          else
            (none, [(symbol, ExitReason.TP)], [(symbol, ExitReason.TP, exit_price)])
        | none => (some pos1, [(symbol, ExitReason.TP)], [])
      else
        (some pos1, [], [])

/-- Embedding of one `monitor_positions()` tick
(src/main/position_monitor.py:112-289): run `monitorStep` over every
cache entry in order, keep the surviving (possibly quantity-corrected)
entries, and concatenate the exit invocations and ledger closes. -/
def monitor_positions (holdings : String → Option ℤ)
    (quotes : String → Option ℚ)
    (exitF : String → ExitReason → Option ℚ) :
    List (String × Pos) →
    List (String × Pos) × List (String × ExitReason) × List (String × ExitReason × ℚ)
  | [] => ([], [], [])
  | (s, p) :: rest =>
    let step := monitorStep holdings quotes exitF s p
    let tail := monitor_positions holdings quotes exitF rest
    (match step.1 with
     | some p1 => (s, p1) :: tail.1
     | none => tail.1,
     step.2.1 ++ tail.2.1,
     step.2.2 ++ tail.2.2)

/-- A concrete OPEN ledger record (entry 100, stop 95, target 115,
quantity 10), used to instantiate the theorems on explicit inputs. -/
def sampleOpenTrade (tid sym ets : String) : Trade :=
  { trade_id := tid
    symbol := sym
    entry_timestamp := ets
    entry_price := 100
    stop_loss := 95
    target_price := 115
    quantity := 10
    status := TradeStatus.OPEN
    exit_timestamp := none
    exit_price := none
    exit_reason := none
    bars_held := none
    pnl_per_share := none
    pnl_total := none
    r_value := none }

/-- A concrete open-position cache record with the given prices and
quantity, used to instantiate the monitor theorems on explicit
inputs. -/
def samplePos (tid : String) (entry stop target : ℚ) (qty : ℤ) : Pos :=
  { trade_id := tid
    entry_price := entry
    stop_loss := stop
    target_price := target
    quantity := qty
    entry_timestamp := "2026-10-09T10:00:00" }

/-! ## Supporting lemmas -/

theorem ratTrunc_of_nonneg {q : ℚ} (h : 0 ≤ q) : ratTrunc q = ⌊q⌋ := by
  simp [ratTrunc, h]

theorem ratTrunc_nonpos_iff_floor_nonpos (q : ℚ) :
    ratTrunc q ≤ 0 ↔ ⌊q⌋ ≤ 0 := by
  unfold ratTrunc
  by_cases h : 0 ≤ q
  · simp [h]
  · push_neg at h
    have hfloor : ⌊q⌋ ≤ 0 := Int.floor_nonpos h.le
    have hneg : (0 : ℤ) ≤ ⌊-q⌋ := Int.floor_nonneg.mpr (by linarith)
    simp [not_le.mpr h]
    omega

theorem ratTrunc_eq_floor_of_floor_pos {q : ℚ} (h : 0 < ⌊q⌋) :
    ratTrunc q = ⌊q⌋ := by
  have h1 : (1 : ℚ) ≤ q := by
    calc (1 : ℚ) = ((1 : ℤ) : ℚ) := by norm_num
    _ ≤ (⌊q⌋ : ℚ) := by exact_mod_cast h
    _ ≤ q := Int.floor_le q
  exact ratTrunc_of_nonneg (by linarith)

/-! ## C5 — position sizing -/

/-- C5: `calculate_position_size` returns no size when
`entry_price - stop_price ≤ 0`; otherwise, with
`qty = ⌊total_equity * risk_fraction / (entry_price - stop_price)⌋`, it
returns no size when `qty ≤ 0` and otherwise returns exactly that `qty`
(together with the required capital `entry_price * qty` and the risk per
share). -/
theorem C5_position_sizing (entry_price stop_loss total_equity : ℚ) :
    (entry_price - stop_loss ≤ 0 →
      calculate_position_size entry_price stop_loss total_equity = none)
    ∧ (0 < entry_price - stop_loss →
      (⌊total_equity * RISK_PERCENT / (entry_price - stop_loss)⌋ ≤ 0 →
        calculate_position_size entry_price stop_loss total_equity = none)
      ∧ (0 < ⌊total_equity * RISK_PERCENT / (entry_price - stop_loss)⌋ →
        calculate_position_size entry_price stop_loss total_equity
          = some (⌊total_equity * RISK_PERCENT / (entry_price - stop_loss)⌋,
              entry_price
                * (⌊total_equity * RISK_PERCENT / (entry_price - stop_loss)⌋ : ℚ),
              entry_price - stop_loss))) := by
  constructor
  · intro h
    simp [calculate_position_size, h]
  · intro hpos
    constructor
    · intro hfl
      have ht := (ratTrunc_nonpos_iff_floor_nonpos
        (total_equity * RISK_PERCENT / (entry_price - stop_loss))).mpr hfl
      simp [calculate_position_size, not_le.mpr hpos, ht]
    · intro hfl
      have ht := ratTrunc_eq_floor_of_floor_pos hfl
      have ht2 : ¬ ratTrunc (total_equity * RISK_PERCENT / (entry_price - stop_loss)) ≤ 0 := by
        rw [ht]; omega
      simp only [calculate_position_size, not_le.mpr hpos, if_false, ht2, ht,
        if_neg ht2]
      simp [not_le.mpr hfl]

/-- C5 witness: sizing at entry 100, stop 95, equity 500000 yields
quantity 1000, and entry 100, stop 100 is rejected. -/
theorem C5_position_sizing_witness :
    calculate_position_size 100 95 500000
      = some (1000, 100000, 5)
    ∧ calculate_position_size 100 100 500000 = none := by
  constructor
  · have h := ((C5_position_sizing 100 95 500000).2 (by norm_num)).2
    have hfl : ⌊(500000 : ℚ) * RISK_PERCENT / (100 - 95)⌋ = 1000 := by
      norm_num [RISK_PERCENT]
    rw [hfl] at h
    have := h (by norm_num)
    rw [this]
    norm_num
  · exact (C5_position_sizing 100 100 500000).1 (by norm_num)

/-! ## C6 — realized R-multiple -/

/-- C6: the realized R-multiple of a close equals
`(exit_price - entry_price) / (entry_price - stop_loss)` when the
denominator is positive, and 0 when the denominator is ≤ 0 — both in
the trade ledger's computation (`computeRValue`, used by
`log_trade_exit`) and in the risk ledger's (`risk_manager_r`). -/
theorem C6_r_multiple (entry_price stop_loss exit_price : ℚ) :
    (0 < entry_price - stop_loss →
      computeRValue entry_price stop_loss exit_price
        = (exit_price - entry_price) / (entry_price - stop_loss)
      ∧ risk_manager_r entry_price exit_price stop_loss
        = (exit_price - entry_price) / (entry_price - stop_loss))
    ∧ (entry_price - stop_loss ≤ 0 →
      computeRValue entry_price stop_loss exit_price = 0
      ∧ risk_manager_r entry_price exit_price stop_loss = 0) := by
  constructor
  · intro h
    constructor
    · simp [computeRValue, h]
    · simp [risk_manager_r, not_le.mpr h]
  · intro h
    constructor
    · simp [computeRValue, not_lt.mpr h]
    · simp [risk_manager_r, h]

/-- C6 witness: entry 100, stop 95, exit 110 gives R = 2, and exit 90
gives R = −2, in both computations. -/
theorem C6_r_multiple_witness :
    computeRValue 100 95 110 = 2 ∧ computeRValue 100 95 90 = -2
    ∧ risk_manager_r 100 110 95 = 2 ∧ risk_manager_r 100 90 95 = -2 := by
  have h1 := (C6_r_multiple 100 95 110).1 (by norm_num)
  have h2 := (C6_r_multiple 100 95 90).1 (by norm_num)
  refine ⟨?_, ?_, ?_, ?_⟩
  · rw [h1.1]; norm_num
  · rw [h2.1]; norm_num
  · rw [h1.2]; norm_num
  · rw [h2.2]; norm_num

/-! ## C4 — drawdown-cap gate -/

/-- C4: `can_open_new_trades` returns `allowed = false` exactly when the
cumulative R of trades closed in the current calendar month is ≤ the
−5.0 cap; a month summing to exactly −5 blocks new entries and a month
summing to −4 (one R-unit above the cap) allows them. -/
theorem C4_cap_gate (log : List RLogEntry) (current_month : String) :
    ((can_open_new_trades log current_month).1 = false ↔
      (get_current_month_r log current_month).1 ≤ MONTHLY_DD_CAP)
    ∧ ((get_current_month_r log current_month).1 = -5 →
      (can_open_new_trades log current_month).1 = false)
    ∧ ((get_current_month_r log current_month).1 = -4 →
      (can_open_new_trades log current_month).1 = true) := by
  refine ⟨?_, ?_, ?_⟩
  · by_cases h : (get_current_month_r log current_month).1 ≤ MONTHLY_DD_CAP <;>
      simp [can_open_new_trades, h]
  · intro h
    simp [can_open_new_trades, h, MONTHLY_DD_CAP]
  · intro h
    have : ¬ (get_current_month_r log current_month).1 ≤ MONTHLY_DD_CAP := by
      rw [h, MONTHLY_DD_CAP]; norm_num
    simp [can_open_new_trades, this]

/-- C4 witness: a month whose closed trades sum to exactly −5R is
blocked; a month summing to −4R is allowed. -/
theorem C4_cap_gate_witness :
    (can_open_new_trades
      [⟨"AAA", -3, "2026-10-02T11:00:00"⟩, ⟨"BBB", -2, "2026-10-07T14:00:00"⟩]
      "2026-10").1 = false
    ∧ (can_open_new_trades
      [⟨"AAA", -3, "2026-10-02T11:00:00"⟩, ⟨"BBB", -1, "2026-10-07T14:00:00"⟩]
      "2026-10").1 = true := by
  constructor
  · exact (C4_cap_gate
      [⟨"AAA", -3, "2026-10-02T11:00:00"⟩, ⟨"BBB", -2, "2026-10-07T14:00:00"⟩]
      "2026-10").2.1 (by
        have e1 : ("2026-10-02T11:00:00".take 7) = "2026-10" := rfl
        have e2 : ("2026-10-07T14:00:00".take 7) = "2026-10" := rfl
        simp [get_current_month_r, e1, e2]
        norm_num)
  · exact (C4_cap_gate
      [⟨"AAA", -3, "2026-10-02T11:00:00"⟩, ⟨"BBB", -1, "2026-10-07T14:00:00"⟩]
      "2026-10").2.2 (by
        have e1 : ("2026-10-02T11:00:00".take 7) = "2026-10" := rfl
        have e2 : ("2026-10-07T14:00:00".take 7) = "2026-10" := rfl
        simp [get_current_month_r, e1, e2]
        norm_num)

/-! ## C3 — atomic state-store write -/

/-- C3: `atomic_json_write` writes through a sibling temporary file in
the same directory; on any failure before the rename commit point the
temporary file is removed, the previously committed content is left
unchanged and an `IOError` is raised to the caller; after a successful
write the target file holds the complete new content and no temporary
file remains. -/
theorem C3_atomic_write (p : FsPath) (s : FsState) (content : String)
    (outcome : WriteOutcome) :
    (tempPathOf p).dir = p.dir
    ∧ (outcome ≠ WriteOutcome.ok →
      ((atomic_json_write s content outcome).2.isSome
        ∧ (atomic_json_write s content outcome).1.committed = s.committed
        ∧ (atomic_json_write s content outcome).1.temp = none))
    ∧ (outcome = WriteOutcome.ok →
      ((atomic_json_write s content outcome).2 = none
        ∧ (atomic_json_write s content outcome).1.committed = some content
        ∧ (atomic_json_write s content outcome).1.temp = none)) := by
  refine ⟨rfl, ?_, ?_⟩
  · intro h
    cases outcome with
    | ok => exact absurd rfl h
    | failDump partial0 =>
      simp [atomic_json_write, cleanupTemp]
    | failRename =>
      simp [atomic_json_write, cleanupTemp, writeTemp]
  · intro h
    subst h
    simp [atomic_json_write, writeTemp, renameTempToTarget]

/-- C3 witness: a failure while writing the temp file leaves a
previously committed value intact, removes the temp file and raises;
a successful write commits the full new content. -/
theorem C3_atomic_write_witness :
    ((tempPathOf ⟨["logs", "2026"], "trades", ".json"⟩).dir = ["logs", "2026"]
      ∧ ((atomic_json_write ⟨some "old", none⟩ "new"
          (WriteOutcome.failDump (some "ne"))).2.isSome
        ∧ (atomic_json_write ⟨some "old", none⟩ "new"
            (WriteOutcome.failDump (some "ne"))).1.committed = some "old"
        ∧ (atomic_json_write ⟨some "old", none⟩ "new"
            (WriteOutcome.failDump (some "ne"))).1.temp = none))
    ∧ ((atomic_json_write ⟨some "old", none⟩ "new" WriteOutcome.ok).2 = none
      ∧ (atomic_json_write ⟨some "old", none⟩ "new"
          WriteOutcome.ok).1.committed = some "new"
      ∧ (atomic_json_write ⟨some "old", none⟩ "new"
          WriteOutcome.ok).1.temp = none) := by
  have h1 := C3_atomic_write ⟨["logs", "2026"], "trades", ".json"⟩
    ⟨some "old", none⟩ "new" (WriteOutcome.failDump (some "ne"))
  have h2 := C3_atomic_write ⟨["logs", "2026"], "trades", ".json"⟩
    ⟨some "old", none⟩ "new" WriteOutcome.ok
  exact ⟨⟨h1.1, h1.2.1 (by decide)⟩, h2.2.2 rfl⟩

/-! ## C8 — unverified entry still recorded -/

/-- C8: when the broker accepted the entry order but its status could
not be confirmed — the first history fetch raised, or the first fetch
returned a non-terminal status and the second fetch raised —
`place_entry_order` still records the trade via `log_trade_entry` and
returns the order and trade identifiers. -/
theorem C8_unverified_entry_recorded (order_id trade_id e : String)
    (check1 check2 : Except String OrderStatus) :
    (check1 = Except.error e →
      place_entry_order (Except.ok order_id) check1 check2 trade_id
        = (some (order_id, trade_id), true))
    ∧ (∀ s, check1 = Except.ok (OrderStatus.OTHER s) →
      check2 = Except.error e →
      place_entry_order (Except.ok order_id) check1 check2 trade_id
        = (some (order_id, trade_id), true)) := by
  constructor
  · intro h
    subst h
    rfl
  · intro s h1 h2
    subst h1
    subst h2
    rfl

/-- C8 witness: a placement accepted as order "ORD1" whose verification
raises on both attempts is still logged and returns the ids. -/
theorem C8_unverified_entry_recorded_witness :
    place_entry_order (Except.ok "ORD1") (Except.error "timeout")
      (Except.error "timeout") "TR_20261012_ABC_101500"
      = (some ("ORD1", "TR_20261012_ABC_101500"), true)
    ∧ place_entry_order (Except.ok "ORD1")
      (Except.ok (OrderStatus.OTHER "OPEN")) (Except.error "timeout")
      "TR_20261012_ABC_101500"
      = (some ("ORD1", "TR_20261012_ABC_101500"), true) := by
  constructor
  · exact (C8_unverified_entry_recorded "ORD1" "TR_20261012_ABC_101500"
      "timeout" (Except.error "timeout") (Except.error "timeout")).1 rfl
  · exact (C8_unverified_entry_recorded "ORD1" "TR_20261012_ABC_101500"
      "timeout" (Except.ok (OrderStatus.OTHER "OPEN"))
      (Except.error "timeout")).2 "OPEN" rfl rfl

/-! ## Ledger search lemmas -/

theorem closeFirstMatch_of_all_false (tid : Option String) (sym ets er : String)
    (ep : ℚ) (b : ℤ) (ts : List Trade)
    (h : ∀ u ∈ ts, tradeMatches tid sym u = false) :
    closeFirstMatch tid sym ets ep er b ts = none := by
  induction ts with
  | nil => rfl
  | cons u us ih =>
    have hu : tradeMatches tid sym u = false := h u (List.mem_cons_self u us)
    have hus := ih (fun v hv => h v (List.mem_cons_of_mem u hv))
    simp [closeFirstMatch, hu, hus]

theorem closeFirstMatch_append (tid : Option String) (sym ets er : String)
    (ep : ℚ) (b : ℤ) (pre post : List Trade) (t : Trade)
    (hpre : ∀ u ∈ pre, tradeMatches tid sym u = false)
    (ht : tradeMatches tid sym t = true) :
    closeFirstMatch tid sym ets ep er b (pre ++ t :: post)
      = some (pre ++ applyExit t ets ep er b :: post,
          computeRValue t.entry_price t.stop_loss ep) := by
  induction pre with
  | nil => simp [closeFirstMatch, ht]
  | cons u us ih =>
    have hu : tradeMatches tid sym u = false := hpre u (List.mem_cons_self u us)
    have hus := ih (fun v hv => hpre v (List.mem_cons_of_mem u hv))
    simp [closeFirstMatch, hu, hus]

theorem applyExit_trade_id (t : Trade) (ets : String) (ep : ℚ) (er : String)
    (b : ℤ) : (applyExit t ets ep er b).trade_id = t.trade_id := rfl

theorem applyExit_status (t : Trade) (ets : String) (ep : ℚ) (er : String)
    (b : ℤ) : (applyExit t ets ep er b).status = TradeStatus.CLOSED := rfl

theorem summary_trades_closed_congr (pre post : List Trade) (x y : Trade)
    (h : x.status = y.status) :
    summary_trades_closed (pre ++ x :: post)
      = summary_trades_closed (pre ++ y :: post) := by
  unfold summary_trades_closed
  rw [List.filter_append, List.filter_append, List.filter_cons,
    List.filter_cons, h]
  split_ifs <;> simp

/-! ## C1 — idempotent close -/

/-- C1 counterexample: the claim says a second `log_trade_exit` call
with the same trade id finds no matching OPEN record and returns 0.  On
the code, the id branch of the search (src/main/log_manager.py:250) does
not consult the status field, so the second call matches the
already-CLOSED record and returns its recomputed r-value: with an OPEN
trade at entry 100 / stop 95 closed twice at exit 110, the second call
returns 2, not 0. -/
theorem C1_counterexample :
    (log_trade_exit (some "TR_20260105_RELIANCE_101500") "RELIANCE"
      "2026-01-08T11:05:00" 110 "TP" 3
      (log_trade_exit (some "TR_20260105_RELIANCE_101500") "RELIANCE"
        "2026-01-08T11:00:00" 110 "TP" 3
        ⟨some [sampleOpenTrade "TR_20260105_RELIANCE_101500" "RELIANCE"
          "2026-01-05T10:15:00"], none⟩).1).2 = 2 ∧ (2 : ℚ) ≠ 0 := by
  constructor
  · have h1 := closeFirstMatch_append (some "TR_20260105_RELIANCE_101500")
      "RELIANCE" "2026-01-08T11:00:00" "TP" 110 3 [] []
      (sampleOpenTrade "TR_20260105_RELIANCE_101500" "RELIANCE"
        "2026-01-05T10:15:00")
      (by intro u hu; cases hu) (by rfl)
    have h2 := closeFirstMatch_append (some "TR_20260105_RELIANCE_101500")
      "RELIANCE" "2026-01-08T11:05:00" "TP" 110 3 [] []
      (applyExit (sampleOpenTrade "TR_20260105_RELIANCE_101500" "RELIANCE"
        "2026-01-05T10:15:00") "2026-01-08T11:00:00" 110 "TP" 3)
      (by intro u hu; cases hu) (by rfl)
    simp only [List.nil_append] at h1 h2
    simp only [log_trade_exit, h1, h2]
    norm_num [computeRValue, applyExit, sampleOpenTrade]
  · norm_num

/-- C1 amended: a second `log_trade_exit` call with the same trade id
matches the already-CLOSED record (the id branch of the search ignores
status), overwrites its exit fields again and returns the recomputed
r-value — not 0.  The record is updated in place rather than appended,
so the regenerated Performance Summary still counts the trade exactly
once (`trades_closed` is unchanged by the second call).  Only a close
without a trade id (by symbol) requires status OPEN and would find no
record on a second call. -/
theorem C1_second_close_amended (pre post : List Trade) (t : Trade)
    (tid sym : String) (prevPart : Option (List Trade))
    (ets1 er1 ets2 er2 : String) (ep1 ep2 : ℚ) (b1 b2 : ℤ)
    (hpre : ∀ u ∈ pre, u.trade_id ≠ tid)
    (ht : t.trade_id = tid) :
    (log_trade_exit (some tid) sym ets1 ep1 er1 b1
        ⟨some (pre ++ t :: post), prevPart⟩)
      = (⟨some (pre ++ applyExit t ets1 ep1 er1 b1 :: post), prevPart⟩,
          computeRValue t.entry_price t.stop_loss ep1)
    ∧ (log_trade_exit (some tid) sym ets2 ep2 er2 b2
        ⟨some (pre ++ applyExit t ets1 ep1 er1 b1 :: post), prevPart⟩)
      = (⟨some (pre ++ applyExit (applyExit t ets1 ep1 er1 b1) ets2 ep2 er2 b2
            :: post), prevPart⟩,
          computeRValue t.entry_price t.stop_loss ep2)
    ∧ summary_trades_closed
        (pre ++ applyExit (applyExit t ets1 ep1 er1 b1) ets2 ep2 er2 b2 :: post)
      = summary_trades_closed (pre ++ applyExit t ets1 ep1 er1 b1 :: post) := by
  have hpre2 : ∀ u ∈ pre, tradeMatches (some tid) sym u = false := by
    intro u hu
    simp [tradeMatches, hpre u hu]
  have ht2 : tradeMatches (some tid) sym t = true := by
    simp [tradeMatches, ht]
  have ht3 : tradeMatches (some tid) sym (applyExit t ets1 ep1 er1 b1) = true := by
    simp [tradeMatches, applyExit, ht]
  have h1 := closeFirstMatch_append (some tid) sym ets1 er1 ep1 b1 pre post t
    hpre2 ht2
  have h2 := closeFirstMatch_append (some tid) sym ets2 er2 ep2 b2 pre post
    (applyExit t ets1 ep1 er1 b1) hpre2 ht3
  refine ⟨?_, ?_, ?_⟩
  · simp [log_trade_exit, h1]
  · have he : (applyExit t ets1 ep1 er1 b1).entry_price = t.entry_price := rfl
    have hs : (applyExit t ets1 ep1 er1 b1).stop_loss = t.stop_loss := rfl
    rw [he, hs] at h2
    simp [log_trade_exit, h2]
  · exact summary_trades_closed_congr pre post _ _ (by simp [applyExit])

/-- C1 amended witness: the double close of the concrete RELIANCE trade;
the first and the second call both return 2, and `trades_closed` of the
affected month is the same after either call. -/
theorem C1_second_close_amended_witness :
    (log_trade_exit (some "TR1") "RELIANCE" "2026-01-08T11:00:00" 110 "TP" 3
        ⟨some [sampleOpenTrade "TR1" "RELIANCE" "2026-01-05T10:15:00"],
          none⟩).2 = 2
    ∧ (log_trade_exit (some "TR1") "RELIANCE" "2026-01-08T11:05:00" 110 "TP" 3
        ⟨some [applyExit
            (sampleOpenTrade "TR1" "RELIANCE" "2026-01-05T10:15:00")
            "2026-01-08T11:00:00" 110 "TP" 3], none⟩).2 = 2
    ∧ summary_trades_closed
        [applyExit (applyExit
            (sampleOpenTrade "TR1" "RELIANCE" "2026-01-05T10:15:00")
            "2026-01-08T11:00:00" 110 "TP" 3) "2026-01-08T11:05:00" 110 "TP" 3]
      = summary_trades_closed
        [applyExit (sampleOpenTrade "TR1" "RELIANCE" "2026-01-05T10:15:00")
          "2026-01-08T11:00:00" 110 "TP" 3] := by
  have h := C1_second_close_amended [] []
    (sampleOpenTrade "TR1" "RELIANCE" "2026-01-05T10:15:00")
    "TR1" "RELIANCE" none "2026-01-08T11:00:00" "TP" "2026-01-08T11:05:00" "TP"
    110 110 3 3 (by intro u hu; cases hu) rfl
  simp only [List.nil_append] at h
  refine ⟨?_, ?_, ?_⟩
  · rw [h.1]
    norm_num [computeRValue, sampleOpenTrade]
  · rw [h.2.1]
    norm_num [computeRValue, sampleOpenTrade]
  · exact h.2.2

/-! ## C7 — cross-month close -/

/-- C7: `log_trade_exit` searches the current month's partition first
and, when no record there matches, the immediately preceding month's
partition; a trade that is absent from the current month (or whose file
is missing) and sits in the previous month's file is found there,
flipped to CLOSED with its exit price recorded, and its r-value is
returned. -/
theorem C7_cross_month_close (cur : Option (List Trade))
    (pre post : List Trade) (t : Trade) (tid : Option String)
    (sym ets er : String) (ep : ℚ) (b : ℤ)
    (hcur : ∀ ts, cur = some ts → ∀ u ∈ ts, tradeMatches tid sym u = false)
    (hpre : ∀ u ∈ pre, tradeMatches tid sym u = false)
    (ht : tradeMatches tid sym t = true) :
    log_trade_exit tid sym ets ep er b ⟨cur, some (pre ++ t :: post)⟩
      = (⟨cur, some (pre ++ applyExit t ets ep er b :: post)⟩,
          computeRValue t.entry_price t.stop_loss ep)
    ∧ (applyExit t ets ep er b).status = TradeStatus.CLOSED
    ∧ (applyExit t ets ep er b).exit_price = some ep := by
  have hprev := closeFirstMatch_append tid sym ets er ep b pre post t hpre ht
  refine ⟨?_, rfl, rfl⟩
  cases cur with
  | none => simp [log_trade_exit, hprev]
  | some ts =>
    have hnone := closeFirstMatch_of_all_false tid sym ets er ep b ts
      (hcur ts rfl)
    simp [log_trade_exit, hnone, hprev]

/-- C7 witness: a trade opened on 31 January and closed on 1 February —
absent from February's empty file, present OPEN in January's — is found
in the previous month's partition, closed at exit 110 with status
CLOSED, and R = 2 is returned. -/
theorem C7_cross_month_close_witness :
    (log_trade_exit (some "TR_20260131_TCS_140000") "TCS"
      "2026-02-01T10:00:00" 110 "TP" 2
      ⟨some [], some [sampleOpenTrade "TR_20260131_TCS_140000" "TCS"
        "2026-01-31T14:00:00"]⟩).2 = 2
    ∧ (log_trade_exit (some "TR_20260131_TCS_140000") "TCS"
      "2026-02-01T10:00:00" 110 "TP" 2
      ⟨some [], some [sampleOpenTrade "TR_20260131_TCS_140000" "TCS"
        "2026-01-31T14:00:00"]⟩).1.prev
      = some [applyExit (sampleOpenTrade "TR_20260131_TCS_140000" "TCS"
          "2026-01-31T14:00:00") "2026-02-01T10:00:00" 110 "TP" 2]
    ∧ (applyExit (sampleOpenTrade "TR_20260131_TCS_140000" "TCS"
        "2026-01-31T14:00:00") "2026-02-01T10:00:00" 110 "TP" 2).status
      = TradeStatus.CLOSED := by
  have h := C7_cross_month_close (some []) [] []
    (sampleOpenTrade "TR_20260131_TCS_140000" "TCS" "2026-01-31T14:00:00")
    (some "TR_20260131_TCS_140000") "TCS" "2026-02-01T10:00:00" "TP" 110 2
    (by intro ts hts u hu; cases hts; cases hu)
    (by intro u hu; cases hu) (by rfl)
  have h1 := h.1
  simp only [List.nil_append] at h1
  refine ⟨?_, ?_, h.2.1⟩
  · rw [h1]
    norm_num [computeRValue, sampleOpenTrade]
  · rw [h1]

/-! ## Monitor step lemmas -/

theorem monitorStep_not_held (H : String → Option ℤ) (Q : String → Option ℚ)
    (F : String → ExitReason → Option ℚ) (s : String) (p : Pos)
    (h : H s = none) :
    monitorStep H Q F s p = (none, [], []) := by
  simp [monitorStep, h]

theorem monitorStep_no_quote (H : String → Option ℤ) (Q : String → Option ℚ)
    (F : String → ExitReason → Option ℚ) (s : String) (p : Pos) (q : ℤ)
    (hH : H s = some q) (hQ : Q s = none) :
    monitorStep H Q F s p = (some { p with quantity := q }, [], []) := by
  simp [monitorStep, hH, hQ]

theorem monitorStep_sl_hit (H : String → Option ℤ) (Q : String → Option ℚ)
    (F : String → ExitReason → Option ℚ) (s : String) (p : Pos) (q : ℤ)
    (ltp : ℚ) (hH : H s = some q) (hQ : Q s = some ltp)
    (hsl : ltp ≤ p.stop_loss) :
    (monitorStep H Q F s p).2.1 = [(s, ExitReason.SL)] := by
  have hsl2 : ltp ≤ ({ p with quantity := q } : Pos).stop_loss := hsl
  simp only [monitorStep, hH, hQ, if_pos hsl2]
  rcases F s ExitReason.SL with _ | ep
  · rfl
  · by_cases hep : ep = 0 <;> simp [hep]

theorem monitorStep_exit_none_keeps (H : String → Option ℤ)
    (Q : String → Option ℚ) (F : String → ExitReason → Option ℚ)
    (s : String) (p : Pos) (q : ℤ) (ltp : ℚ)
    (hH : H s = some q) (hQ : Q s = some ltp)
    (hFsl : F s ExitReason.SL = none) (hFtp : F s ExitReason.TP = none) :
    (monitorStep H Q F s p).1 = some { p with quantity := q }
    ∧ (monitorStep H Q F s p).2.2 = [] := by
  simp only [monitorStep, hH, hQ]
  split_ifs with h1 h2
  · rw [hFsl]
    exact ⟨rfl, rfl⟩
  · rw [hFtp]
    exact ⟨rfl, rfl⟩
  · exact ⟨rfl, rfl⟩

theorem monitorStep_inv_symbol (H : String → Option ℤ) (Q : String → Option ℚ)
    (F : String → ExitReason → Option ℚ) (s : String) (p : Pos) :
    ∀ x ∈ (monitorStep H Q F s p).2.1, x.1 = s := by
  intro x hx
  rcases hH : H s with _ | q
  · rw [monitorStep_not_held H Q F s p hH] at hx
    cases hx
  · rcases hQ : Q s with _ | ltp
    · rw [monitorStep_no_quote H Q F s p q hH hQ] at hx
      cases hx
    · simp only [monitorStep, hH, hQ] at hx
      split_ifs at hx with h1 h2
      · rcases hF : F s ExitReason.SL with _ | ep
        · rw [hF] at hx
          simp at hx
          simp [hx]
        · rw [hF] at hx
          by_cases hep : ep = 0 <;> simp [hep] at hx <;> simp [hx]
      · rcases hF : F s ExitReason.TP with _ | ep
        · rw [hF] at hx
          simp at hx
          simp [hx]
        · rw [hF] at hx
          by_cases hep : ep = 0 <;> simp [hep] at hx <;> simp [hx]
      · cases hx

theorem monitorStep_close_sound (H : String → Option ℤ)
    (Q : String → Option ℚ) (F : String → ExitReason → Option ℚ)
    (s : String) (p : Pos) :
    ∀ c ∈ (monitorStep H Q F s p).2.2,
      c.1 = s ∧ F c.1 c.2.1 = some c.2.2 ∧ c.2.2 ≠ 0 := by
  intro c hc
  rcases hH : H s with _ | q
  · rw [monitorStep_not_held H Q F s p hH] at hc
    cases hc
  · rcases hQ : Q s with _ | ltp
    · rw [monitorStep_no_quote H Q F s p q hH hQ] at hc
      cases hc
    · simp only [monitorStep, hH, hQ] at hc
      split_ifs at hc with h1 h2
      · rcases hF : F s ExitReason.SL with _ | ep
        · rw [hF] at hc
          cases hc
        · rw [hF] at hc
          by_cases hep : ep = 0
          · simp [hep] at hc
          · simp only [if_neg hep] at hc
            simp at hc
            subst hc
            exact ⟨rfl, by simp [hF, hep]⟩
      · rcases hF : F s ExitReason.TP with _ | ep
        · rw [hF] at hc
          cases hc
        · rw [hF] at hc
          by_cases hep : ep = 0
          · simp [hep] at hc
          · simp only [if_neg hep] at hc
            simp at hc
            subst hc
            exact ⟨rfl, by simp [hF, hep]⟩
      · cases hc

/-! ## Monitor tick lemmas -/

theorem monitor_inv_symbol_mem (H : String → Option ℤ)
    (Q : String → Option ℚ) (F : String → ExitReason → Option ℚ) :
    ∀ cache : List (String × Pos),
      ∀ x ∈ (monitor_positions H Q F cache).2.1, x.1 ∈ cache.map Prod.fst := by
  intro cache
  induction cache with
  | nil => intro x hx; cases hx
  | cons hd tl ih =>
    intro x hx
    simp only [monitor_positions, List.mem_append] at hx
    rcases hx with hx | hx
    · rw [List.map_cons, monitorStep_inv_symbol H Q F hd.1 hd.2 x hx]
      exact List.mem_cons_self _ _
    · rw [List.map_cons]
      exact List.mem_cons_of_mem _ (ih x hx)

theorem monitor_close_symbol_mem (H : String → Option ℤ)
    (Q : String → Option ℚ) (F : String → ExitReason → Option ℚ) :
    ∀ cache : List (String × Pos),
      ∀ c ∈ (monitor_positions H Q F cache).2.2, c.1 ∈ cache.map Prod.fst := by
  intro cache
  induction cache with
  | nil => intro c hc; cases hc
  | cons hd tl ih =>
    intro c hc
    simp only [monitor_positions, List.mem_append] at hc
    rcases hc with hc | hc
    · rw [List.map_cons, (monitorStep_close_sound H Q F hd.1 hd.2 c hc).1]
      exact List.mem_cons_self _ _
    · rw [List.map_cons]
      exact List.mem_cons_of_mem _ (ih c hc)

theorem monitor_close_sound (H : String → Option ℤ)
    (Q : String → Option ℚ) (F : String → ExitReason → Option ℚ) :
    ∀ cache : List (String × Pos),
      ∀ c ∈ (monitor_positions H Q F cache).2.2,
        F c.1 c.2.1 = some c.2.2 ∧ c.2.2 ≠ 0 := by
  intro cache
  induction cache with
  | nil => intro c hc; cases hc
  | cons hd tl ih =>
    intro c hc
    simp only [monitor_positions, List.mem_append] at hc
    rcases hc with hc | hc
    · exact (monitorStep_close_sound H Q F hd.1 hd.2 c hc).2
    · exact ih c hc

/-! ## C2 — stop priority in the monitor tick -/

/-- C2 counterexample: the claim asserts that for EVERY cached position
whose live price satisfies both the stop and the target condition the
stop-exit path is invoked.  A cached position that the broker no longer
reports as held is dropped (src/main/position_monitor.py:182-184)
before the price is ever compared, so no exit path is invoked at all:
with a cached record whose stop is 95 and target is 85, a live price of
90 satisfying both conditions, and empty broker holdings, the tick's
invocation list is empty. -/
theorem C2_counterexample :
    ((90 : ℚ) ≤ (samplePos "TRX" 100 95 85 10).stop_loss
      ∧ (samplePos "TRX" 100 95 85 10).target_price ≤ (90 : ℚ))
    ∧ ("GAPX", ExitReason.SL) ∉
        (monitor_positions (fun _ => none) (fun _ => some 90)
          (fun _ _ => some 90) [("GAPX", samplePos "TRX" 100 95 85 10)]).2.1 := by
  refine ⟨⟨by norm_num [samplePos], by norm_num [samplePos]⟩, ?_⟩
  have h : (monitor_positions (fun _ => none) (fun _ => some 90)
      (fun _ _ => some 90) [("GAPX", samplePos "TRX" 100 95 85 10)]).2.1
      = [] := by
    simp [monitor_positions, monitorStep]
  rw [h]
  simp

/-- C2 amended: in every monitor tick, for every cached position (with
the cache keyed by symbol, as a dict is) whose live quote satisfies the
stop condition — in particular when it satisfies the stop and the
target condition simultaneously — the target-exit path is never invoked
for that symbol, and whenever the broker still reports the symbol as
held, the stop-exit path is invoked. -/
theorem C2_stop_priority_amended (cache : List (String × Pos))
    (H : String → Option ℤ) (Q : String → Option ℚ)
    (F : String → ExitReason → Option ℚ) (s : String) (p : Pos) (ltp : ℚ)
    (hmem : (s, p) ∈ cache) (hnd : (cache.map Prod.fst).Nodup)
    (hQ : Q s = some ltp) (hsl : ltp ≤ p.stop_loss)
    (htp : p.target_price ≤ ltp) :
    ((s, ExitReason.TP) ∉ (monitor_positions H Q F cache).2.1)
    ∧ (∀ q, H s = some q →
        (s, ExitReason.SL) ∈ (monitor_positions H Q F cache).2.1) := by
  induction cache with
  | nil => cases hmem
  | cons hd tl ih =>
    obtain ⟨s0, p0⟩ := hd
    have hnd1 : s0 ∉ tl.map Prod.fst := by
      simp only [List.map_cons, List.nodup_cons] at hnd
      exact hnd.1
    have hndtl : (tl.map Prod.fst).Nodup := by
      simp only [List.map_cons, List.nodup_cons] at hnd
      exact hnd.2
    rcases List.mem_cons.mp hmem with heq | hmem2
    · have hs : s0 = s := (Prod.mk.injEq .. ▸ heq).1.symm
      have hp : p0 = p := (Prod.mk.injEq .. ▸ heq).2.symm
      subst hs
      subst hp
      constructor
      · intro hcon
        simp only [monitor_positions, List.mem_append] at hcon
        rcases hcon with hcon | hcon
        · rcases hH : H s0 with _ | q
          · rw [monitorStep_not_held H Q F s0 p0 hH] at hcon
            cases hcon
          · rw [monitorStep_sl_hit H Q F s0 p0 q ltp hH hQ hsl] at hcon
            simp at hcon
        · have := monitor_inv_symbol_mem H Q F tl _ hcon
          exact hnd1 this
      · intro q hH
        simp only [monitor_positions, List.mem_append]
        left
        rw [monitorStep_sl_hit H Q F s0 p0 q ltp hH hQ hsl]
        simp
    · have hs0ne : s0 ≠ s := by
        intro h
        subst h
        exact hnd1 (List.mem_map_of_mem Prod.fst hmem2)
      have ihr := ih hmem2 hndtl
      constructor
      · intro hcon
        simp only [monitor_positions, List.mem_append] at hcon
        rcases hcon with hcon | hcon
        · have := monitorStep_inv_symbol H Q F s0 p0 _ hcon
          simp at this
          exact hs0ne this.symm
        · exact ihr.1 hcon
      · intro q hH
        simp only [monitor_positions, List.mem_append]
        right
        exact ihr.2 q hH

/-- C2 amended witness: a cached GAPX position (stop 95, target 85)
still held by the broker, quoted at 90 — satisfying both conditions —
produces a stop-exit invocation and no target-exit invocation. -/
theorem C2_stop_priority_amended_witness :
    (("GAPX", ExitReason.TP) ∉
      (monitor_positions (fun _ => some 10) (fun _ => some 90)
        (fun _ _ => some 90)
        [("GAPX", samplePos "TRX" 100 95 85 10)]).2.1)
    ∧ ("GAPX", ExitReason.SL) ∈
      (monitor_positions (fun _ => some 10) (fun _ => some 90)
        (fun _ _ => some 90)
        [("GAPX", samplePos "TRX" 100 95 85 10)]).2.1 := by
  have h := C2_stop_priority_amended
    [("GAPX", samplePos "TRX" 100 95 85 10)]
    (fun _ => some 10) (fun _ => some 90) (fun _ _ => some 90)
    "GAPX" (samplePos "TRX" 100 95 85 10) 90
    (List.mem_singleton.mpr rfl) (by simp) rfl
    (by norm_num [samplePos]) (by norm_num [samplePos])
  exact ⟨h.1, h.2 10 rfl⟩

/-! ## C10 — failed exit keeps the position tracked -/

theorem monitor_keeps_of_exit_none (H : String → Option ℤ)
    (Q : String → Option ℚ) (F : String → ExitReason → Option ℚ) :
    ∀ (cache : List (String × Pos)) (s : String) (p : Pos) (q : ℤ) (ltp : ℚ),
      (s, p) ∈ cache → H s = some q → Q s = some ltp →
      F s ExitReason.SL = none → F s ExitReason.TP = none →
      (s, { p with quantity := q }) ∈ (monitor_positions H Q F cache).1 := by
  intro cache
  induction cache with
  | nil =>
    intro s p q ltp hmem
    cases hmem
  | cons hd tl ih =>
    intro s p q ltp hmem hH hQ hFsl hFtp
    obtain ⟨s0, p0⟩ := hd
    rcases List.mem_cons.mp hmem with heq | hmem2
    · have hs : s0 = s := (Prod.mk.injEq .. ▸ heq).1.symm
      have hp : p0 = p := (Prod.mk.injEq .. ▸ heq).2.symm
      subst hs
      subst hp
      have hk := (monitorStep_exit_none_keeps H Q F s0 p0 q ltp hH hQ
        hFsl hFtp).1
      simp only [monitor_positions, hk]
      exact List.mem_cons_self _ _
    · have hmemtl := ih s p q ltp hmem2 hH hQ hFsl hFtp
      simp only [monitor_positions]
      rcases (monitorStep H Q F s0 p0).1 with _ | p1
      · exact hmemtl
      · exact List.mem_cons_of_mem _ hmemtl

theorem monitor_no_close_of_exit_none (H : String → Option ℤ)
    (Q : String → Option ℚ) (F : String → ExitReason → Option ℚ) :
    ∀ (cache : List (String × Pos)) (s : String) (p : Pos) (q : ℤ) (ltp : ℚ),
      (s, p) ∈ cache → (cache.map Prod.fst).Nodup →
      H s = some q → Q s = some ltp →
      F s ExitReason.SL = none → F s ExitReason.TP = none →
      ∀ r pr, (s, r, pr) ∉ (monitor_positions H Q F cache).2.2 := by
  intro cache
  induction cache with
  | nil =>
    intro s p q ltp hmem
    cases hmem
  | cons hd tl ih =>
    intro s p q ltp hmem hnd hH hQ hFsl hFtp r pr hcon
    obtain ⟨s0, p0⟩ := hd
    have hnd1 : s0 ∉ tl.map Prod.fst := by
      simp only [List.map_cons, List.nodup_cons] at hnd
      exact hnd.1
    have hndtl : (tl.map Prod.fst).Nodup := by
      simp only [List.map_cons, List.nodup_cons] at hnd
      exact hnd.2
    rcases List.mem_cons.mp hmem with heq | hmem2
    · have hs : s0 = s := (Prod.mk.injEq .. ▸ heq).1.symm
      have hp : p0 = p := (Prod.mk.injEq .. ▸ heq).2.symm
      subst hs
      subst hp
      simp only [monitor_positions, List.mem_append] at hcon
      rcases hcon with hcon | hcon
      · have hk := (monitorStep_exit_none_keeps H Q F s0 p0 q ltp hH hQ
          hFsl hFtp).2
        rw [hk] at hcon
        cases hcon
      · exact hnd1 (monitor_close_symbol_mem H Q F tl _ hcon)
    · simp only [monitor_positions, List.mem_append] at hcon
      rcases hcon with hcon | hcon
      · have hs0 : s = s0 := (monitorStep_close_sound H Q F s0 p0 _ hcon).1
        subst hs0
        exact hnd1 (List.mem_map_of_mem Prod.fst hmem2)
      · exact ih s p q ltp hmem2 hndtl hH hQ hFsl hFtp r pr hcon

/-- C10 counterexample: the claim asserts that when `place_exit_order`
returns None for a breached position the cache entry is left unchanged.
The quantity reconciliation earlier in the same tick
(src/main/position_monitor.py:191-197) already mutates the entry when
the broker-reported quantity differs: a cached X position of quantity
10 that the broker reports as 5, quoted below its stop, with the exit
call returning None, ends the tick still cached but with quantity 5 —
not the unchanged entry. -/
theorem C10_counterexample :
    ((90 : ℚ) ≤ (samplePos "TRX" 100 95 115 10).stop_loss)
    ∧ (monitor_positions (fun _ => some 5) (fun _ => some 90)
        (fun _ _ => none) [("X", samplePos "TRX" 100 95 115 10)]).1
      = [("X", { samplePos "TRX" 100 95 115 10 with quantity := 5 })]
    ∧ { samplePos "TRX" 100 95 115 10 with quantity := 5 }
      ≠ samplePos "TRX" 100 95 115 10 := by
  refine ⟨by norm_num [samplePos], ?_, ?_⟩
  · norm_num [monitor_positions, monitorStep, samplePos]
  · intro h
    have := congrArg Pos.quantity h
    simp [samplePos] at this

/-- C10 amended: in every monitor tick (cache keyed by symbol), a
ledger close is written only for symbols where the exit order call
returned a nonzero exit price; and a cached position still reported
held whose exit calls return None stays in the cache — with its
quantity set to the broker-reported value, all other fields unchanged —
and no ledger close is written for it. -/
theorem C10_exit_none_keeps_position (cache : List (String × Pos))
    (H : String → Option ℤ) (Q : String → Option ℚ)
    (F : String → ExitReason → Option ℚ) (s : String) (p : Pos) (q : ℤ)
    (ltp : ℚ) (hmem : (s, p) ∈ cache) (hnd : (cache.map Prod.fst).Nodup)
    (hH : H s = some q) (hQ : Q s = some ltp)
    (hbreach : ltp ≤ p.stop_loss ∨ p.target_price ≤ ltp)
    (hFsl : F s ExitReason.SL = none) (hFtp : F s ExitReason.TP = none) :
    ((s, { p with quantity := q }) ∈ (monitor_positions H Q F cache).1)
    ∧ (∀ r pr, (s, r, pr) ∉ (monitor_positions H Q F cache).2.2)
    ∧ (∀ s2 r pr, (s2, r, pr) ∈ (monitor_positions H Q F cache).2.2 →
        F s2 r = some pr ∧ pr ≠ 0) := by
  refine ⟨?_, ?_, ?_⟩
  · exact monitor_keeps_of_exit_none H Q F cache s p q ltp hmem hH hQ
      hFsl hFtp
  · exact monitor_no_close_of_exit_none H Q F cache s p q ltp hmem hnd hH hQ
      hFsl hFtp
  · intro s2 r pr hc
    exact monitor_close_sound H Q F cache (s2, r, pr) hc

/-- C10 amended witness: the breached X position (stop 95, quote 90,
broker quantity 5 against cached 10) whose exit call returns None stays
cached with quantity 5, and the tick writes no ledger close. -/
theorem C10_exit_none_keeps_position_witness :
    (("X", { samplePos "TRX" 100 95 115 10 with quantity := 5 }) ∈
      (monitor_positions (fun _ => some 5) (fun _ => some 90)
        (fun _ _ => none) [("X", samplePos "TRX" 100 95 115 10)]).1)
    ∧ (∀ r pr, ("X", r, pr) ∉
      (monitor_positions (fun _ => some 5) (fun _ => some 90)
        (fun _ _ => none) [("X", samplePos "TRX" 100 95 115 10)]).2.2) := by
  have h := C10_exit_none_keeps_position
    [("X", samplePos "TRX" 100 95 115 10)]
    (fun _ => some 5) (fun _ => some 90) (fun _ _ => none)
    "X" (samplePos "TRX" 100 95 115 10) 5 90
    (List.mem_singleton.mpr rfl) (by simp) rfl rfl
    (Or.inl (by norm_num [samplePos])) rfl rfl
  exact ⟨h.1, h.2.1⟩

/-! ## C9 — batch entry processing -/

theorem calculate_position_size_some (e s eqt : ℚ) (qty : ℤ) (cap rps : ℚ)
    (h : calculate_position_size e s eqt = some (qty, cap, rps)) :
    0 < qty ∧ cap = e * (qty : ℚ) ∧ rps = e - s := by
  simp only [calculate_position_size] at h
  split_ifs at h with h1 h2
  push_neg at h2
  simp only [Option.some.injEq, Prod.mk.injEq] at h
  obtain ⟨hq, hc, hr⟩ := h
  subst hq
  exact ⟨h2, hc.symm, hr.symm⟩

theorem processCandidate_skip (eqt : ℚ) (oracle : String → Bool)
    (tidF tsF : String → String) (st : EntryState) (c : String × Signal)
    (hmem : c.1 ∈ st.positions) :
    processCandidate eqt oracle tidF tsF st c = st := by
  simp [processCandidate, hmem]

theorem processCandidate_margin_le (eqt : ℚ) (oracle : String → Bool)
    (tidF tsF : String → String) (st : EntryState) (c : String × Signal)
    (hnn : 0 ≤ c.2.entry_price) :
    (processCandidate eqt oracle tidF tsF st c).margin ≤ st.margin := by
  unfold processCandidate
  by_cases hmem : c.1 ∈ st.positions
  · simp [hmem]
  · simp only [if_neg hmem]
    rcases hcs : calculate_position_size c.2.entry_price c.2.reclaim_low eqt
      with _ | ⟨qty, cap, rps⟩
    · simp
    · obtain ⟨hqty, hcap, _⟩ :=
        calculate_position_size_some c.2.entry_price c.2.reclaim_low eqt
          qty cap rps hcs
      by_cases hmar : cap > st.margin
      · simp [hmar]
      · simp only [if_neg hmar]
        by_cases ho : oracle c.1
        · have hcap0 : (0 : ℚ) ≤ cap := by
            rw [hcap]
            apply mul_nonneg hnn
            exact_mod_cast hqty.le
          simp only [ho, if_true]
          simp
          linarith
        · simp [ho]

theorem processCandidate_placed_inv (eqt : ℚ) (oracle : String → Bool)
    (tidF tsF : String → String) (st : EntryState) (c : String × Signal)
    (hsub : ∀ x ∈ st.placed, x ∈ st.positions) (hnd : st.placed.Nodup) :
    (∀ x ∈ (processCandidate eqt oracle tidF tsF st c).placed,
      x ∈ (processCandidate eqt oracle tidF tsF st c).positions)
    ∧ (processCandidate eqt oracle tidF tsF st c).placed.Nodup := by
  unfold processCandidate
  by_cases hmem : c.1 ∈ st.positions
  · simp only [if_pos hmem]
    exact ⟨hsub, hnd⟩
  · simp only [if_neg hmem]
    rcases hcs : calculate_position_size c.2.entry_price c.2.reclaim_low eqt
      with _ | ⟨qty, cap, rps⟩
    · exact ⟨hsub, hnd⟩
    · by_cases hmar : cap > st.margin
      · simp only [if_pos hmar]
        exact ⟨hsub, hnd⟩
      · simp only [if_neg hmar]
        by_cases ho : oracle c.1
        · have hnp : c.1 ∉ st.placed := fun hc => hmem (hsub c.1 hc)
          simp only [ho, if_true]
          constructor
          · intro x hx
            simp only [List.mem_append, List.mem_singleton] at hx
            rcases hx with hx | hx
            · exact List.mem_cons_of_mem _ (hsub x hx)
            · subst hx
              exact List.mem_cons_self _ _
          · simp [List.nodup_append, hnd, hnp]
        · simp only [ho, if_false]
          exact ⟨hsub, hnd⟩

theorem process_entry_orders_margin_le (eqt : ℚ) (oracle : String → Bool)
    (tidF tsF : String → String) :
    ∀ (signals : List (String × Signal)) (st : EntryState),
      (∀ c ∈ signals, 0 ≤ c.2.entry_price) →
      (process_entry_orders eqt oracle tidF tsF st signals).margin
        ≤ st.margin := by
  intro signals
  induction signals with
  | nil =>
    intro st hpos
    exact le_refl _
  | cons c cs ih =>
    intro st hpos
    have hstep : process_entry_orders eqt oracle tidF tsF st (c :: cs)
        = process_entry_orders eqt oracle tidF tsF
            (processCandidate eqt oracle tidF tsF st c) cs := rfl
    rw [hstep]
    exact le_trans
      (ih _ (fun d hd => hpos d (List.mem_cons_of_mem c hd)))
      (processCandidate_margin_le eqt oracle tidF tsF st c
        (hpos c (List.mem_cons_self c cs)))

theorem process_entry_orders_placed_inv (eqt : ℚ) (oracle : String → Bool)
    (tidF tsF : String → String) :
    ∀ (signals : List (String × Signal)) (st : EntryState),
      (∀ x ∈ st.placed, x ∈ st.positions) → st.placed.Nodup →
      (∀ x ∈ (process_entry_orders eqt oracle tidF tsF st signals).placed,
        x ∈ (process_entry_orders eqt oracle tidF tsF st signals).positions)
      ∧ (process_entry_orders eqt oracle tidF tsF st signals).placed.Nodup := by
  intro signals
  induction signals with
  | nil =>
    intro st hsub hnd
    exact ⟨hsub, hnd⟩
  | cons c cs ih =>
    intro st hsub hnd
    have h := processCandidate_placed_inv eqt oracle tidF tsF st c hsub hnd
    exact ih _ h.1 h.2

/-- C9: one pass of `process_entry_orders` over a batch of candidate
signals: a candidate whose symbol already has a cached open position is
a strict no-op (no order, no cache change, no margin change); the state
is threaded sequentially, each candidate seeing the updates of the
previous one; the available margin never increases across the batch
(given nonnegative entry prices); and the symbols successfully booked
in one pass are pairwise distinct — no symbol is booked twice. -/
theorem C9_batch_entry (eqt : ℚ) (oracle : String → Bool)
    (tidF tsF : String → String) (init : EntryState)
    (signals : List (String × Signal)) :
    (∀ (st : EntryState) (c : String × Signal), c.1 ∈ st.positions →
      processCandidate eqt oracle tidF tsF st c = st)
    ∧ (∀ (st : EntryState) (c : String × Signal)
        (cs : List (String × Signal)),
        process_entry_orders eqt oracle tidF tsF st (c :: cs)
          = process_entry_orders eqt oracle tidF tsF
              (processCandidate eqt oracle tidF tsF st c) cs)
    ∧ ((∀ c ∈ signals, 0 ≤ c.2.entry_price) →
      (process_entry_orders eqt oracle tidF tsF init signals).margin
        ≤ init.margin)
    ∧ ((∀ x ∈ init.placed, x ∈ init.positions) → init.placed.Nodup →
      (process_entry_orders eqt oracle tidF tsF init signals).placed.Nodup) := by
  refine ⟨?_, ?_, ?_, ?_⟩
  · intro st c hmem
    exact processCandidate_skip eqt oracle tidF tsF st c hmem
  · intro st c cs
    rfl
  · intro hpos
    exact process_entry_orders_margin_le eqt oracle tidF tsF signals init hpos
  · intro hsub hnd
    exact (process_entry_orders_placed_inv eqt oracle tidF tsF signals init
      hsub hnd).2

/-- C9 witness: a concrete batch in which the same symbol appears twice
(entry 100, stop 95, equity 500000, margin 200000, every order
accepted): a state that already holds ABC skips it unchanged, the batch
margin does not increase, and the booked symbols are duplicate-free. -/
theorem C9_batch_entry_witness :
    processCandidate 500000 (fun _ => true) (fun s => s) (fun s => s)
      ⟨["ABC"], [], 200000, []⟩ ("ABC", ⟨100, 101, 95⟩)
      = ⟨["ABC"], [], 200000, []⟩
    ∧ (process_entry_orders 500000 (fun _ => true) (fun s => s) (fun s => s)
        ⟨[], [], 200000, []⟩
        [("ABC", ⟨100, 101, 95⟩), ("ABC", ⟨100, 101, 95⟩)]).margin ≤ 200000
    ∧ (process_entry_orders 500000 (fun _ => true) (fun s => s) (fun s => s)
        ⟨[], [], 200000, []⟩
        [("ABC", ⟨100, 101, 95⟩), ("ABC", ⟨100, 101, 95⟩)]).placed.Nodup := by
  have h := C9_batch_entry 500000 (fun _ => true) (fun s => s) (fun s => s)
    ⟨[], [], 200000, []⟩ [("ABC", ⟨100, 101, 95⟩), ("ABC", ⟨100, 101, 95⟩)]
  refine ⟨?_, ?_, ?_⟩
  · exact h.1 ⟨["ABC"], [], 200000, []⟩ ("ABC", ⟨100, 101, 95⟩)
      (List.mem_singleton.mpr rfl)
  · exact h.2.2.1 (by
      intro c hc
      simp only [List.mem_cons, List.mem_singleton, List.not_mem_nil,
        or_false] at hc
      rcases hc with hc | hc <;> subst hc <;> norm_num)
  · exact h.2.2.2 (by intro x hx; cases hx) List.nodup_nil

end TradingBot
